import Mathlib

/-!
Shallow embedding of src/async_impl/pay.rs from the wechat-pay-rust-sdk
repository: the outbound operations of the WechatPay client (pay, get_pay,
the per-endpoint wrappers, certificates, get_weixin, refunds,
transfer_bills).  Each operation is embedded as a pure function over an
environment supplying the outcomes of the external steps (JSON
parsing/serialization, header construction, the HTTP transport, response
decoding), and returns its result together with an ordered trace of
observable events, so that ordering and propagation properties of the
control flow can be stated and proved.
-/

namespace WechatSdk

/-- HTTP methods, from crate::request::HttpMethod: the five variants
dispatched in pay.rs lines 54-60. -/
inductive HttpMethod where
  | GET
  | POST
  | PUT
  | DELETE
  | PATCH
deriving DecidableEq

/-- Modelled from the spec: crate::error::PayError is declared outside the
given sources.  pay.rs converts serde_json and reqwest errors into it via
the question-mark operator, build_header returns it, and get_weixin names
the WeixinNotFound variant directly. -/
inductive PayError where
  | serdeError (msg : String)
  | signError (msg : String)
  | reqwestError (msg : String)
  | weixinNotFound
deriving DecidableEq

/-- A JSON value as stored in the serde_json object map; only the shapes
relevant to the inserted fields are distinguished. -/
inductive JValue where
  | str (s : String)
  | num (n : Int)
  | boolean (b : Bool)
  | null
deriving DecidableEq

/-- The serde_json Map of String to Value from pay.rs line 45, modelled as
an association list whose insert replaces the value of an existing key
(serde_json map insert semantics). -/
abbrev JMap := List (String × JValue)

/-- Map insert: replace the value at an existing key, otherwise add the
binding (serde_json Map::insert, pay.rs lines 46-48). -/
def jinsert (k : String) (v : JValue) : JMap → JMap
  | [] => [(k, v)]
  | (k1, v1) :: rest => if k1 = k then (k, v) :: rest else (k1, v1) :: jinsert k v rest

/-- Map lookup by key. -/
def jlookup (k : String) : JMap → Option JValue
  | [] => none
  | (k1, v1) :: rest => if k1 = k then some v1 else jlookup k rest

/-- Modelled from the spec: the WechatPay client struct (crate::pay::WechatPay)
is declared outside the given sources; the accessors appid(), mch_id(),
notify_url() and base_url() used by pay.rs are modelled as fields. -/
structure WechatPay where
  appid : String
  mch_id : String
  notify_url : String
  base_url : String

/-- Opaque representation of a reqwest HeaderMap. -/
abbrev Headers := String

/-- Observable events of one outbound operation, in program order:
the call to build_header (the signing step), the transport send, the
decoding of the response body, and a signature verification of a response
body (an event the embedding can express but pay.rs never performs). -/
inductive Event where
  | signCall (method : HttpMethod) (url_path : String) (body : String)
  | sent (method : HttpMethod) (url : String) (headers : Headers) (body : String)
  | decoded (raw : String)
  | verified (raw : String)
deriving DecidableEq

/-- True exactly on verification events. -/
def isVerifiedEvent : Event → Bool
  | Event.verified _ => true
  | _ => false

/-- Outcomes of the external steps an operation performs, one field per
collaborator outside the given sources: serde_json parsing (line 45) and
serialization (line 49), WechatPay::build_header (line 50), the reqwest
transport send (lines 62-66), response JSON decoding (lines 67-69), and
WechatPay::mut_sign_data used by the jsapi/micro/app wrappers. -/
structure PayEnv (R : Type) where
  parseMap : String → Except PayError JMap
  toJsonString : JMap → Except PayError String
  build_header : HttpMethod → String → String → Except PayError Headers
  send : HttpMethod → String → Headers → String → Except PayError String
  decodeJson : String → Except PayError R
  mut_sign_data : String → String → String

/-- The three client fields forced into the parsed parameter map by
WechatPay::pay (pay.rs lines 46-48): appid, then mchid, then notify_url. -/
def payMergedMap (self : WechatPay) (m : JMap) : JMap :=
  jinsert "notify_url" (JValue.str self.notify_url)
    (jinsert "mchid" (JValue.str self.mch_id)
      (jinsert "appid" (JValue.str self.appid) m))

/-- The sequence repeated verbatim by pay (lines 50-69), get_pay (lines
75-87), refunds (lines 174-187) and transfer_bills (lines 197-212) once the
body string is fixed: build the authentication headers over the method, the
url path and the body; on success send the request with that same body to
base_url concatenated with the url path; on success decode the response
body as JSON.  Each question-mark operator of the source is a short-circuit
on the error constructor. -/
def transportPhase {R : Type} (self : WechatPay) (env : PayEnv R) (method : HttpMethod)
    (url : String) (body : String) : Except PayError R × List Event :=
  match env.build_header method url body with
  | Except.error e => (Except.error e, [Event.signCall method url body])
  | Except.ok headers =>
    let fullUrl := self.base_url ++ url
    match env.send method fullUrl headers body with
    | Except.error e =>
      (Except.error e,
        [Event.signCall method url body, Event.sent method fullUrl headers body])
    | Except.ok raw =>
      match env.decodeJson raw with
      | Except.error e =>
        (Except.error e,
          [Event.signCall method url body, Event.sent method fullUrl headers body,
            Event.decoded raw])
      | Except.ok r =>
        (Except.ok r,
          [Event.signCall method url body, Event.sent method fullUrl headers body,
            Event.decoded raw])

/-- WechatPay::pay (pay.rs lines 37-70): parse the serialized params into a
JSON object map, force appid, mchid and notify_url from the client
configuration, re-serialize into the body, build the authentication headers
over the method, the url path and that body, send the request to
base_url concatenated with the url path, and decode the response.  jsonStr
stands for json.to_json() (line 43).  The second component is the ordered
trace of observable events. -/
def pay {R : Type} (self : WechatPay) (env : PayEnv R) (method : HttpMethod)
    (url : String) (jsonStr : String) : Except PayError R × List Event :=
  match env.parseMap jsonStr with
  | Except.error e => (Except.error e, [])
  | Except.ok map0 =>
    let merged := payMergedMap self map0
    match env.toJsonString merged with
    | Except.error e => (Except.error e, [])
    | Except.ok body => transportPhase self env method url body

/-- WechatPay::get_pay (pay.rs lines 72-88): the body is the empty string,
the headers are built over GET, the url path and that empty body, then the
request is sent and the response decoded. -/
def get_pay {R : Type} (self : WechatPay) (env : PayEnv R) (url : String) :
    Except PayError R × List Event :=
  let body := ""
  transportPhase self env HttpMethod.GET url body

/-- crate::response::JsapiResponse, modelled with the two fields pay.rs
touches (prepay_id read, sign_data written). -/
structure JsapiResponse where
  prepay_id : Option String
  sign_data : Option String
deriving DecidableEq

/-- crate::response::MicroResponse, modelled with the two fields pay.rs
touches. -/
structure MicroResponse where
  prepay_id : Option String
  sign_data : Option String
deriving DecidableEq

/-- crate::response::AppResponse, modelled with the two fields pay.rs
touches. -/
structure AppResponse where
  prepay_id : Option String
  sign_data : Option String
deriving DecidableEq

/-- crate::response::NativeResponse, opaque to pay.rs. -/
abbrev NativeResponse := String

/-- crate::response::H5Response, opaque to pay.rs apart from h5_url. -/
abbrev H5Response := String

/-- crate::response::CertificateResponse, opaque to pay.rs. -/
abbrev CertificateResponse := String

/-- WechatPay::h5_pay (pay.rs lines 91-94). -/
def h5_pay (self : WechatPay) (env : PayEnv H5Response) (paramsJson : String) :
    Except PayError H5Response × List Event :=
  pay self env HttpMethod.POST "/v3/pay/transactions/h5" paramsJson

/-- WechatPay::app_pay (pay.rs lines 96-106): POST to the app endpoint, then
on success fill sign_data from mut_sign_data when a prepay_id is present. -/
def app_pay (self : WechatPay) (env : PayEnv AppResponse) (paramsJson : String) :
    Except PayError AppResponse × List Event :=
  let r := pay self env HttpMethod.POST "/v3/pay/transactions/app" paramsJson
  (Except.map (fun result =>
    match result.prepay_id with
    | some pid => { result with sign_data := some (env.mut_sign_data "" pid) }
    | none => result) r.1, r.2)

/-- WechatPay::jsapi_pay (pay.rs lines 108-118): POST to the jsapi endpoint,
then on success fill sign_data when a prepay_id is present. -/
def jsapi_pay (self : WechatPay) (env : PayEnv JsapiResponse) (paramsJson : String) :
    Except PayError JsapiResponse × List Event :=
  let r := pay self env HttpMethod.POST "/v3/pay/transactions/jsapi" paramsJson
  (Except.map (fun result =>
    match result.prepay_id with
    | some pid => { result with sign_data := some (env.mut_sign_data "prepay_id=" pid) }
    | none => result) r.1, r.2)

/-- WechatPay::micro_pay (pay.rs lines 120-130): its url constant is
"/v3/pay/transactions/jsapi", the same endpoint as jsapi_pay. -/
def micro_pay (self : WechatPay) (env : PayEnv MicroResponse) (paramsJson : String) :
    Except PayError MicroResponse × List Event :=
  let r := pay self env HttpMethod.POST "/v3/pay/transactions/jsapi" paramsJson
  (Except.map (fun result =>
    match result.prepay_id with
    | some pid => { result with sign_data := some (env.mut_sign_data "prepay_id=" pid) }
    | none => result) r.1, r.2)

/-- WechatPay::native_pay (pay.rs lines 132-135). -/
def native_pay (self : WechatPay) (env : PayEnv NativeResponse) (paramsJson : String) :
    Except PayError NativeResponse × List Event :=
  pay self env HttpMethod.POST "/v3/pay/transactions/native" paramsJson

/-- WechatPay::certificates (pay.rs lines 138-141): a get_pay to
"/v3/certificates". -/
def certificates (self : WechatPay) (env : PayEnv CertificateResponse) :
    Except PayError CertificateResponse × List Event :=
  get_pay self env "/v3/certificates"

/-- WechatPay::refunds (pay.rs lines 168-188): the body is the serialized
params, the headers are built over POST, the refunds url path and that
body, then the request is sent and the response decoded. -/
def refunds {R : Type} (self : WechatPay) (env : PayEnv R) (paramsJson : String) :
    Except PayError R × List Event :=
  let url := "/v3/refund/domestic/refunds"
  let body := paramsJson
  transportPhase self env HttpMethod.POST url body

/-- WechatPay::transfer_bills (pay.rs lines 191-213): same shape as refunds
with the transfer-bills url path. -/
def transfer_bills {R : Type} (self : WechatPay) (env : PayEnv R) (paramsJson : String) :
    Except PayError R × List Event :=
  let url := "/v3/fund-app/mch-transfer/transfer-bills"
  let body := paramsJson
  transportPhase self env HttpMethod.POST url body

/-- Rust str::starts_with on character lists: startsWith pat l holds when
pat is an initial segment of l. -/
def startsWith : List Char → List Char → Bool
  | [], _ => true
  | _ :: _, [] => false
  | a :: as, b :: bs => a = b && startsWith as bs

/-- Rust str::contains on character lists: containsSeq pat l holds when pat
occurs contiguously somewhere in l. -/
def containsSeq (pat : List Char) : List Char → Bool
  | [] => pat.isEmpty
  | x :: xs => startsWith pat (x :: xs) || containsSeq pat xs

/-- One step of Rust str::split on a single delimiter character: returns
the first segment and the list of remaining segments (so the result is
never empty, matching split yielding at least one item). -/
def splitStep (c : Char) : List Char → List Char × List (List Char)
  | [] => ([], [])
  | x :: xs =>
    let p := splitStep c xs
    if x = c then ([], p.1 :: p.2) else (x :: p.1, p.2)

/-- Rust str::split on a single delimiter character, as the full segment
list (empty segments included, at least one segment). -/
def splitSegs (c : Char) (l : List Char) : List (List Char) :=
  (splitStep c l).1 :: (splitStep c l).2

/-- The pattern searched for by get_weixin. -/
def weixinPat : List Char := "weixin://".data

/-- WechatPay::get_weixin (pay.rs lines 143-165), after the page text has
been fetched by the transport (the fetchText argument): split the text on
newline, find the first line containing weixin://, and within that line
split on the double-quote character and find the first segment containing
weixin://; when no line matches, the result is the WeixinNotFound error. -/
def get_weixin (fetchText : Except PayError String) : Except PayError (Option String) :=
  match fetchText with
  | Except.error e => Except.error e
  | Except.ok text =>
    match (splitSegs '\n' text.data).find? (fun line => containsSeq weixinPat line) with
    | some line =>
      Except.ok (((splitSegs '"' line).find? (fun seg => containsSeq weixinPat seg)).map
        (fun seg => String.mk seg))
    | none => Except.error PayError.weixinNotFound

/-- Modelled from the spec: the canonical signing string built by
WechatPay::build_header (declared outside the given sources): method, url
path, timestamp, nonce and body concatenated, each terminated by a newline,
the body line present even when the body is empty. -/
def canonical_request_string (method url_path timestamp nonce body : String) : String :=
  method ++ "\n" ++ url_path ++ "\n" ++ timestamp ++ "\n" ++ nonce ++ "\n" ++ body ++ "\n"

/-- Skip up to and including the scheme separator of a URL. -/
def afterSchemeSep : List Char → List Char
  | [] => []
  | ':' :: '/' :: '/' :: rest => rest
  | _ :: rest => afterSchemeSep rest

/-- Keep from the first slash onwards. -/
def pathFrom : List Char → List Char
  | [] => []
  | '/' :: rest => '/' :: rest
  | _ :: rest => pathFrom rest

/-- The path component of a URL: what follows the authority, i.e. from the
first slash after the scheme separator. -/
def urlPathOf (u : String) : String := String.mk (pathFrom (afterSchemeSep u.data))

/-- A sample page text containing a weixin:// link inside quotes. -/
def demoText : String := "head\nfoo=\x22weixin://wxpay/abc\x22;\ntail"

/-- A concrete client configuration used by the concrete instantiations. -/
def demoClient : WechatPay :=
  { appid := "app", mch_id := "mch", notify_url := "https://notify.example",
    base_url := "https://api.mch.weixin.qq.com" }

/-- A concrete environment in which every external step succeeds. -/
def okEnv : PayEnv String :=
  { parseMap := fun _ => Except.ok [("total", JValue.num 1)],
    toJsonString := fun _ => Except.ok "BODY",
    build_header := fun _ _ _ => Except.ok "AUTH",
    send := fun _ _ _ _ => Except.ok "RAW",
    decodeJson := fun raw => Except.ok raw,
    mut_sign_data := fun p pid => p ++ pid }

/-- The okEnv environment with a failing header construction step. -/
def failSignEnv : PayEnv String :=
  { okEnv with build_header := fun _ _ _ => Except.error (PayError.signError "bad key") }

/-- okEnv retargeted at MicroResponse decoding. -/
def okEnvMicro : PayEnv MicroResponse :=
  { parseMap := okEnv.parseMap, toJsonString := okEnv.toJsonString,
    build_header := okEnv.build_header, send := okEnv.send,
    decodeJson := fun _ => Except.ok { prepay_id := some "pid", sign_data := none },
    mut_sign_data := okEnv.mut_sign_data }

/-- okEnv retargeted at JsapiResponse decoding. -/
def okEnvJsapi : PayEnv JsapiResponse :=
  { parseMap := okEnv.parseMap, toJsonString := okEnv.toJsonString,
    build_header := okEnv.build_header, send := okEnv.send,
    decodeJson := fun _ => Except.ok { prepay_id := some "pid", sign_data := none },
    mut_sign_data := okEnv.mut_sign_data }

/-- A pattern that occurs as a prefix occurs somewhere. -/
theorem startsWith_imp_containsSeq (pat l : List Char) (h : startsWith pat l = true) :
    containsSeq pat l = true := by
  cases l with
  | nil =>
    cases pat with
    | nil => rfl
    | cons a as => simp [startsWith] at h
  | cons x xs => simp [containsSeq, h]

/-- Occurrence is preserved by extending the list on the left. -/
theorem containsSeq_cons (pat : List Char) (x : Char) (xs : List Char)
    (h : containsSeq pat xs = true) : containsSeq pat (x :: xs) = true := by
  simp [containsSeq, h]

/-- A prefix free of the delimiter survives into the first split segment. -/
theorem startsWith_splitStep (c : Char) :
    ∀ (pat l : List Char), (∀ ch ∈ pat, ch ≠ c) → startsWith pat l = true →
      startsWith pat (splitStep c l).1 = true := by
  intro pat
  induction pat with
  | nil => intro l _ _; rfl
  | cons a as ih =>
    intro l hc hsw
    cases l with
    | nil => simp [startsWith] at hsw
    | cons x xs =>
      have hax : a = x ∧ startsWith as xs = true := by
        simpa [startsWith, Bool.and_eq_true, decide_eq_true_eq] using hsw
      have hxc : x ≠ c := hax.1 ▸ hc a (List.mem_cons_self a as)
      have hstep : (splitStep c (x :: xs)).1 = x :: (splitStep c xs).1 := by
        simp [splitStep, hxc]
      rw [hstep]
      have hrec := ih xs (fun ch hm => hc ch (List.mem_cons_of_mem a hm)) hax.2
      simp [startsWith, hax.1, hrec]

/-- A nonempty pattern free of the delimiter that occurs in the list occurs
inside one of the split segments: the delimiter cannot cut through it. -/
theorem containsSeq_splitSegs (c : Char) (pat : List Char) (hne : pat ≠ [])
    (hc : ∀ ch ∈ pat, ch ≠ c) :
    ∀ l : List Char, containsSeq pat l = true →
      ∃ seg, seg ∈ splitSegs c l ∧ containsSeq pat seg = true := by
  intro l
  induction l with
  | nil =>
    intro hcs
    cases pat with
    | nil => exact absurd rfl hne
    | cons p ps => simp [containsSeq] at hcs
  | cons x xs ih =>
    intro hcs
    have hcs2 : startsWith pat (x :: xs) = true ∨ containsSeq pat xs = true := by
      simpa [containsSeq, Bool.or_eq_true] using hcs
    by_cases hxc : x = c
    · have hsub : containsSeq pat xs = true := by
        rcases hcs2 with h | h
        · exfalso
          cases pat with
          | nil => exact hne rfl
          | cons p ps =>
            have hp : p = x := by
              have := by simpa [startsWith, Bool.and_eq_true, decide_eq_true_eq] using h
              exact this.1
            exact (hc p (List.mem_cons_self p ps)) (hp.trans hxc)
        · exact h
      rcases ih hsub with ⟨seg, hmem, hseg⟩
      refine ⟨seg, ?_, hseg⟩
      have hsplit : splitSegs c (x :: xs) = [] :: splitSegs c xs := by
        simp [splitSegs, splitStep, hxc]
      rw [hsplit]
      exact List.mem_cons_of_mem _ hmem
    · have hsplit : splitSegs c (x :: xs) = (x :: (splitStep c xs).1) :: (splitStep c xs).2 := by
        simp [splitSegs, splitStep, hxc]
      rcases hcs2 with h | h
      · have h1 := startsWith_splitStep c pat (x :: xs) hc h
        rw [show (splitStep c (x :: xs)).1 = x :: (splitStep c xs).1 by
          simp [splitStep, hxc]] at h1
        refine ⟨x :: (splitStep c xs).1, ?_, startsWith_imp_containsSeq _ _ h1⟩
        rw [hsplit]
        exact List.mem_cons_self _ _
      · rcases ih h with ⟨seg, hmem, hseg⟩
        have hmem2 : seg = (splitStep c xs).1 ∨ seg ∈ (splitStep c xs).2 := by
          simpa [splitSegs] using hmem
        rcases hmem2 with rfl | hmem3
        · refine ⟨x :: (splitStep c xs).1, ?_, containsSeq_cons _ _ _ hseg⟩
          rw [hsplit]
          exact List.mem_cons_self _ _
        · refine ⟨seg, ?_, hseg⟩
          rw [hsplit]
          exact List.mem_cons_of_mem _ hmem3

/-- find? finds something when some element satisfies the predicate. -/
theorem exists_find?_of_mem {α : Type} (p : α → Bool) :
    ∀ l : List α, (∃ x ∈ l, p x = true) →
      ∃ y, l.find? p = some y ∧ p y = true ∧ y ∈ l := by
  intro l
  induction l with
  | nil => intro h; rcases h with ⟨x, hx, _⟩; cases hx
  | cons a as ih =>
    intro h
    cases hpa : p a with
    | true =>
      exact ⟨a, by rw [List.find?_cons_of_pos _ hpa], hpa, List.mem_cons_self a as⟩
    | false =>
      rcases h with ⟨x, hx, hpx⟩
      have hx2 : x ∈ as := by
        rcases List.mem_cons.mp hx with rfl | h2
        · rw [hpx] at hpa; cases hpa
        · exact h2
      rcases ih ⟨x, hx2, hpx⟩ with ⟨y, hy, hpy, hmy⟩
      refine ⟨y, ?_, hpy, List.mem_cons_of_mem a hmy⟩
      rw [List.find?_cons_of_neg _ (by simp [hpa]), hy]

/-- What find? returns is a member satisfying the predicate. -/
theorem find?_mem_and_pred {α : Type} (p : α → Bool) :
    ∀ (l : List α) (y : α), l.find? p = some y → y ∈ l ∧ p y = true := by
  intro l
  induction l with
  | nil => intro y h; simp [List.find?] at h
  | cons a as ih =>
    intro y h
    cases hpa : p a with
    | true =>
      rw [List.find?_cons_of_pos _ hpa] at h
      obtain rfl : a = y := by injection h
      exact ⟨List.mem_cons_self a as, hpa⟩
    | false =>
      rw [List.find?_cons_of_neg _ (by simp [hpa])] at h
      rcases ih y h with ⟨hm, hp⟩
      exact ⟨List.mem_cons_of_mem a hm, hp⟩

/-- Claim C10: get_weixin never returns Ok(None): whenever some
newline-separated line of the fetched text contains the substring
weixin://, the result is Ok(Some(s)) with s a quote-delimited segment of
that line containing weixin://, and when no line contains it the result is
the WeixinNotFound error. -/
theorem get_weixin_never_ok_none (text : String) :
    get_weixin (Except.ok text) ≠ Except.ok none ∧
    ((∃ line ∈ splitSegs '\n' text.data, containsSeq weixinPat line = true) →
      ∃ line s, line ∈ splitSegs '\n' text.data ∧ containsSeq weixinPat line = true ∧
        s ∈ splitSegs '"' line ∧ containsSeq weixinPat s = true ∧
        get_weixin (Except.ok text) = Except.ok (some (String.mk s))) ∧
    ((∀ line ∈ splitSegs '\n' text.data, containsSeq weixinPat line = false) →
      get_weixin (Except.ok text) = Except.error PayError.weixinNotFound) := by
  have hne : weixinPat ≠ [] := by decide
  have hcq : ∀ ch ∈ weixinPat, ch ≠ '"' := by decide
  refine ⟨?_, ?_, ?_⟩
  · intro hcontra
    cases hfind : (splitSegs '\n' text.data).find? (fun line => containsSeq weixinPat line) with
    | none => simp [get_weixin, hfind] at hcontra
    | some line =>
      have hline := (find?_mem_and_pred _ _ _ hfind).2
      rcases containsSeq_splitSegs '"' weixinPat hne hcq line hline with ⟨seg, hmem, hseg⟩
      rcases exists_find?_of_mem _ _ ⟨seg, hmem, hseg⟩ with ⟨y, hy, _, _⟩
      simp [get_weixin, hfind, hy] at hcontra
  · intro hex
    rcases exists_find?_of_mem _ _ hex with ⟨line, hfind, hPline, hmemline⟩
    rcases containsSeq_splitSegs '"' weixinPat hne hcq line hPline with ⟨seg, hmem, hseg⟩
    rcases exists_find?_of_mem _ _ ⟨seg, hmem, hseg⟩ with ⟨y, hy, hPy, hmy⟩
    refine ⟨line, y, hmemline, hPline, hmy, hPy, ?_⟩
    simp [get_weixin, hfind, hy]
  · intro hall
    have hfind : (splitSegs '\n' text.data).find? (fun line => containsSeq weixinPat line)
        = none := by
      rw [List.find?_eq_none]
      intro a ha
      simp [hall a ha]
    simp [get_weixin, hfind]

/-- Witness for C10 at concrete inputs: a page with a quoted weixin link
yields Ok(Some _), and a page without one yields WeixinNotFound. -/
theorem get_weixin_never_ok_none_witness :
    (∃ s, get_weixin (Except.ok demoText) = Except.ok (some (String.mk s)) ∧
      containsSeq weixinPat s = true) ∧
    get_weixin (Except.ok "no pattern here") = Except.error PayError.weixinNotFound := by
  constructor
  · rcases (get_weixin_never_ok_none demoText).2.1 (by decide) with
      ⟨line, s, _, _, _, hPs, heq⟩
    exact ⟨s, heq, hPs⟩
  · exact (get_weixin_never_ok_none "no pattern here").2.2 (by decide)

/-- The trace of the transport phase always begins with the signing call
over the given method, url path and body. -/
theorem transportPhase_head {R : Type} (self : WechatPay) (env : PayEnv R)
    (method : HttpMethod) (url body : String) :
    (transportPhase self env method url body).2.head?
      = some (Event.signCall method url body) := by
  cases hb : env.build_header method url body with
  | error e => simp [transportPhase, hb]
  | ok headers =>
    cases hs : env.send method (self.base_url ++ url) headers body with
    | error e => simp [transportPhase, hb, hs]
    | ok raw =>
      cases hd : env.decodeJson raw with
      | error e => simp [transportPhase, hb, hs, hd]
      | ok r => simp [transportPhase, hb, hs, hd]

/-- The signing call event of the transport phase is always in its trace. -/
theorem transportPhase_signCall_self_mem {R : Type} (self : WechatPay) (env : PayEnv R)
    (method : HttpMethod) (url body : String) :
    Event.signCall method url body ∈ (transportPhase self env method url body).2 := by
  cases hb : env.build_header method url body with
  | error e => simp [transportPhase, hb]
  | ok headers =>
    cases hs : env.send method (self.base_url ++ url) headers body with
    | error e => simp [transportPhase, hb, hs]
    | ok raw =>
      cases hd : env.decodeJson raw with
      | error e => simp [transportPhase, hb, hs, hd]
      | ok r => simp [transportPhase, hb, hs, hd]

/-- The transport phase trace is one of three literal shapes: aborted at
signing, aborted at or after send, or complete. -/
theorem transportPhase_trace_cases {R : Type} (self : WechatPay) (env : PayEnv R)
    (method : HttpMethod) (url body : String) :
    (transportPhase self env method url body).2 = [Event.signCall method url body] ∨
    ∃ headers, env.build_header method url body = Except.ok headers ∧
      ((transportPhase self env method url body).2
          = [Event.signCall method url body,
             Event.sent method (self.base_url ++ url) headers body] ∨
       ∃ raw, (transportPhase self env method url body).2
          = [Event.signCall method url body,
             Event.sent method (self.base_url ++ url) headers body,
             Event.decoded raw]) := by
  cases hb : env.build_header method url body with
  | error e => exact Or.inl (by simp [transportPhase, hb])
  | ok headers =>
    refine Or.inr ⟨headers, rfl, ?_⟩
    cases hs : env.send method (self.base_url ++ url) headers body with
    | error e => exact Or.inl (by simp [transportPhase, hb, hs])
    | ok raw =>
      refine Or.inr ⟨raw, ?_⟩
      cases hd : env.decodeJson raw with
      | error e => simp [transportPhase, hb, hs, hd]
      | ok r => simp [transportPhase, hb, hs, hd]

/-- Every signing-call event in the transport phase trace carries the given
method, url path and body. -/
theorem transportPhase_signCall_inv {R : Type} (self : WechatPay) (env : PayEnv R)
    (method : HttpMethod) (url body : String) (mm : HttpMethod) (p b : String)
    (hmem : Event.signCall mm p b ∈ (transportPhase self env method url body).2) :
    mm = method ∧ p = url ∧ b = body := by
  rcases transportPhase_trace_cases self env method url body with
    htr | ⟨headers, _, htr | ⟨raw, htr⟩⟩ <;> rw [htr] at hmem
  · rcases List.mem_cons.mp hmem with heq | hmem2
    · injection heq with e1 e2 e3; exact ⟨e1, e2, e3⟩
    · cases hmem2
  · rcases List.mem_cons.mp hmem with heq | hmem2
    · injection heq with e1 e2 e3; exact ⟨e1, e2, e3⟩
    · rcases List.mem_cons.mp hmem2 with heq | hmem3
      · cases heq
      · cases hmem3
  · rcases List.mem_cons.mp hmem with heq | hmem2
    · injection heq with e1 e2 e3; exact ⟨e1, e2, e3⟩
    · rcases List.mem_cons.mp hmem2 with heq | hmem3
      · cases heq
      · rcases List.mem_cons.mp hmem3 with heq | hmem4
        · cases heq
        · cases hmem4

/-- Every sent event in the transport phase trace carries the given method,
the base url concatenated with the url path, the identical body, and the
headers returned by build_header over those same arguments. -/
theorem transportPhase_sent_mem {R : Type} (self : WechatPay) (env : PayEnv R)
    (method : HttpMethod) (url body : String) (mm : HttpMethod) (u : String)
    (hd : Headers) (b : String)
    (hmem : Event.sent mm u hd b ∈ (transportPhase self env method url body).2) :
    mm = method ∧ u = self.base_url ++ url ∧ b = body ∧
      env.build_header method url body = Except.ok hd := by
  rcases transportPhase_trace_cases self env method url body with
    htr | ⟨headers, hbh, htr | ⟨raw, htr⟩⟩ <;> rw [htr] at hmem
  · rcases List.mem_cons.mp hmem with heq | hmem2
    · cases heq
    · cases hmem2
  · rcases List.mem_cons.mp hmem with heq | hmem2
    · cases heq
    · rcases List.mem_cons.mp hmem2 with heq | hmem3
      · injection heq with e1 e2 e3 e4
        exact ⟨e1, e2, e4, by rw [e3]; exact hbh⟩
      · cases hmem3
  · rcases List.mem_cons.mp hmem with heq | hmem2
    · cases heq
    · rcases List.mem_cons.mp hmem2 with heq | hmem3
      · injection heq with e1 e2 e3 e4
        exact ⟨e1, e2, e4, by rw [e3]; exact hbh⟩
      · rcases List.mem_cons.mp hmem3 with heq | hmem4
        · cases heq
        · cases hmem4

/-- The transport phase never emits a verification event. -/
theorem transportPhase_countVerified {R : Type} (self : WechatPay) (env : PayEnv R)
    (method : HttpMethod) (url body : String) :
    List.countP isVerifiedEvent (transportPhase self env method url body).2 = 0 := by
  cases hb : env.build_header method url body with
  | error e => simp [transportPhase, hb, List.countP_cons, isVerifiedEvent]
  | ok headers =>
    cases hs : env.send method (self.base_url ++ url) headers body with
    | error e => simp [transportPhase, hb, hs, List.countP_cons, isVerifiedEvent]
    | ok raw =>
      cases hd : env.decodeJson raw with
      | error e => simp [transportPhase, hb, hs, hd, List.countP_cons, isVerifiedEvent]
      | ok r => simp [transportPhase, hb, hs, hd, List.countP_cons, isVerifiedEvent]

/-- A failing build_header aborts the transport phase: the signing error is
the result and the trace holds the single signing call, no send. -/
theorem transportPhase_sign_error {R : Type} (self : WechatPay) (env : PayEnv R)
    (method : HttpMethod) (url body : String) (e : PayError)
    (hb : env.build_header method url body = Except.error e) :
    transportPhase self env method url body
      = (Except.error e, [Event.signCall method url body]) := by
  simp [transportPhase, hb]

/-- A failing send propagates its error. -/
theorem transportPhase_send_error {R : Type} (self : WechatPay) (env : PayEnv R)
    (method : HttpMethod) (url body : String) (headers : Headers) (e : PayError)
    (hb : env.build_header method url body = Except.ok headers)
    (hs : env.send method (self.base_url ++ url) headers body = Except.error e) :
    (transportPhase self env method url body).1 = Except.error e := by
  simp [transportPhase, hb, hs]

/-- A failing response decode propagates its error. -/
theorem transportPhase_decode_error {R : Type} (self : WechatPay) (env : PayEnv R)
    (method : HttpMethod) (url body : String) (headers : Headers) (raw : String)
    (e : PayError)
    (hb : env.build_header method url body = Except.ok headers)
    (hs : env.send method (self.base_url ++ url) headers body = Except.ok raw)
    (hd : env.decodeJson raw = Except.error e) :
    (transportPhase self env method url body).1 = Except.error e := by
  simp [transportPhase, hb, hs, hd]

/-- A successful transport phase result certifies that header construction,
send and decode all succeeded. -/
theorem transportPhase_ok_inv {R : Type} (self : WechatPay) (env : PayEnv R)
    (method : HttpMethod) (url body : String) (r : R)
    (hr : (transportPhase self env method url body).1 = Except.ok r) :
    ∃ headers raw, env.build_header method url body = Except.ok headers ∧
      env.send method (self.base_url ++ url) headers body = Except.ok raw ∧
      env.decodeJson raw = Except.ok r := by
  cases hb : env.build_header method url body with
  | error e => simp [transportPhase, hb] at hr
  | ok headers =>
    cases hs : env.send method (self.base_url ++ url) headers body with
    | error e => simp [transportPhase, hb, hs] at hr
    | ok raw =>
      cases hd : env.decodeJson raw with
      | error e => simp [transportPhase, hb, hs, hd] at hr
      | ok r2 =>
        simp [transportPhase, hb, hs, hd] at hr
        subst hr
        exact ⟨headers, raw, rfl, hs, hd⟩

/-- The transport phase trace depends only on the build_header and send
components of the environment, not on decoding. -/
theorem transportPhase_trace_congr {R S : Type} (self : WechatPay) (envR : PayEnv R)
    (envS : PayEnv S) (method : HttpMethod) (url body : String)
    (hbh : envR.build_header = envS.build_header) (hsend : envR.send = envS.send) :
    (transportPhase self envR method url body).2
      = (transportPhase self envS method url body).2 := by
  cases hb : envS.build_header method url body with
  | error e => simp [transportPhase, hbh, hsend, hb]
  | ok headers =>
    cases hs : envS.send method (self.base_url ++ url) headers body with
    | error e => simp [transportPhase, hbh, hsend, hb, hs]
    | ok raw =>
      cases hdR : envR.decodeJson raw <;> cases hdS : envS.decodeJson raw <;>
        simp [transportPhase, hbh, hsend, hb, hs, hdR, hdS]

/-- pay reduces to the transport phase once parsing and re-serialization
have succeeded, with the re-serialized merged map as the body. -/
theorem pay_ok_body {R : Type} (self : WechatPay) (env : PayEnv R) (method : HttpMethod)
    (url jsonStr : String) (m0 : JMap) (body : String)
    (hp : env.parseMap jsonStr = Except.ok m0)
    (hs : env.toJsonString (payMergedMap self m0) = Except.ok body) :
    pay self env method url jsonStr = transportPhase self env method url body := by
  simp [pay, hp, hs]

/-- A parse failure makes pay return that error with an empty trace. -/
theorem pay_parse_error {R : Type} (self : WechatPay) (env : PayEnv R)
    (method : HttpMethod) (url jsonStr : String) (e : PayError)
    (hp : env.parseMap jsonStr = Except.error e) :
    pay self env method url jsonStr = (Except.error e, []) := by
  simp [pay, hp]

/-- A re-serialization failure makes pay return that error with an empty
trace. -/
theorem pay_toJson_error {R : Type} (self : WechatPay) (env : PayEnv R)
    (method : HttpMethod) (url jsonStr : String) (m0 : JMap) (e : PayError)
    (hp : env.parseMap jsonStr = Except.ok m0)
    (hs : env.toJsonString (payMergedMap self m0) = Except.error e) :
    pay self env method url jsonStr = (Except.error e, []) := by
  simp [pay, hp, hs]

/-- Every signing-call event in a pay trace uses the given method and url
path. -/
theorem pay_signCall_inv {R : Type} (self : WechatPay) (env : PayEnv R)
    (method : HttpMethod) (url jsonStr : String) (mm : HttpMethod) (p b : String)
    (hmem : Event.signCall mm p b ∈ (pay self env method url jsonStr).2) :
    mm = method ∧ p = url := by
  cases hp : env.parseMap jsonStr with
  | error e => rw [pay_parse_error self env method url jsonStr e hp] at hmem; cases hmem
  | ok m0 =>
    cases hs : env.toJsonString (payMergedMap self m0) with
    | error e =>
      rw [pay_toJson_error self env method url jsonStr m0 e hp hs] at hmem
      cases hmem
    | ok body =>
      rw [pay_ok_body self env method url jsonStr m0 body hp hs] at hmem
      have h := transportPhase_signCall_inv self env method url body mm p b hmem
      exact ⟨h.1, h.2.1⟩

/-- Every sent event in a pay trace uses the given method, the base url
concatenated with the url path, and as body the re-serialization of the
merged parameter map. -/
theorem pay_sent_inv {R : Type} (self : WechatPay) (env : PayEnv R)
    (method : HttpMethod) (url jsonStr : String) (mm : HttpMethod) (u : String)
    (hd : Headers) (b : String)
    (hmem : Event.sent mm u hd b ∈ (pay self env method url jsonStr).2) :
    mm = method ∧ u = self.base_url ++ url ∧
      ∃ m0, env.parseMap jsonStr = Except.ok m0 ∧
        env.toJsonString (payMergedMap self m0) = Except.ok b := by
  cases hp : env.parseMap jsonStr with
  | error e => rw [pay_parse_error self env method url jsonStr e hp] at hmem; cases hmem
  | ok m0 =>
    cases hs : env.toJsonString (payMergedMap self m0) with
    | error e =>
      rw [pay_toJson_error self env method url jsonStr m0 e hp hs] at hmem
      cases hmem
    | ok body =>
      rw [pay_ok_body self env method url jsonStr m0 body hp hs] at hmem
      obtain ⟨h1, h2, h3, _⟩ :=
        transportPhase_sent_mem self env method url body mm u hd b hmem
      subst h3
      exact ⟨h1, h2, m0, rfl, hs⟩

/-- The pay trace depends only on the parsing, serialization, build_header
and send components of the environment. -/
theorem pay_trace_congr {R S : Type} (self : WechatPay) (envR : PayEnv R)
    (envS : PayEnv S) (method : HttpMethod) (url jsonStr : String)
    (h1 : envR.parseMap = envS.parseMap) (h2 : envR.toJsonString = envS.toJsonString)
    (h3 : envR.build_header = envS.build_header) (h4 : envR.send = envS.send) :
    (pay self envR method url jsonStr).2 = (pay self envS method url jsonStr).2 := by
  cases hp : envS.parseMap jsonStr with
  | error e =>
    rw [pay_parse_error self envR method url jsonStr e (by rw [h1]; exact hp),
        pay_parse_error self envS method url jsonStr e hp]
  | ok m0 =>
    cases hs : envS.toJsonString (payMergedMap self m0) with
    | error e =>
      rw [pay_toJson_error self envR method url jsonStr m0 e (by rw [h1]; exact hp)
            (by rw [h2]; exact hs),
          pay_toJson_error self envS method url jsonStr m0 e hp hs]
    | ok body =>
      rw [pay_ok_body self envR method url jsonStr m0 body (by rw [h1]; exact hp)
            (by rw [h2]; exact hs),
          pay_ok_body self envS method url jsonStr m0 body hp hs]
      exact transportPhase_trace_congr self envR envS method url body h3 h4

/-- Looking up the inserted key yields the inserted value, whatever was
there before. -/
theorem jlookup_jinsert_self (k : String) (v : JValue) :
    ∀ m : JMap, jlookup k (jinsert k v m) = some v := by
  intro m
  induction m with
  | nil => simp [jinsert, jlookup]
  | cons kv rest ih =>
    obtain ⟨k1, v1⟩ := kv
    by_cases h : k1 = k
    · simp [jinsert, h, jlookup]
    · simp [jinsert, h, jlookup, ih]

/-- Looking up any other key is unaffected by an insert. -/
theorem jlookup_jinsert_ne (k k2 : String) (v : JValue) (hk : k2 ≠ k) :
    ∀ m : JMap, jlookup k2 (jinsert k v m) = jlookup k2 m := by
  intro m
  induction m with
  | nil => simp [jinsert, jlookup, Ne.symm hk]
  | cons kv rest ih =>
    obtain ⟨k1, v1⟩ := kv
    by_cases h : k1 = k
    · subst h
      simp [jinsert, jlookup, Ne.symm hk]
    · by_cases h2 : k1 = k2
      · simp [jinsert, h, jlookup, h2, hk]
      · simp [jinsert, h, jlookup, h2, ih]

/-- Claim C8: pay always carries the client's appid, mchid and notify_url
in the transmitted JSON object: the three keys are forced into the parsed
parameter map, overwriting caller-supplied values, all other keys are
preserved unchanged, and whenever a request body is sent it is exactly the
serialization of that merged map. -/
theorem pay_forces_client_fields (self : WechatPay) (m : JMap) :
    jlookup "appid" (payMergedMap self m) = some (JValue.str self.appid) ∧
    jlookup "mchid" (payMergedMap self m) = some (JValue.str self.mch_id) ∧
    jlookup "notify_url" (payMergedMap self m) = some (JValue.str self.notify_url) ∧
    (∀ k : String, k ≠ "appid" → k ≠ "mchid" → k ≠ "notify_url" →
      jlookup k (payMergedMap self m) = jlookup k m) ∧
    (∀ (R : Type) (env : PayEnv R) (method : HttpMethod) (url jsonStr body : String)
        (m0 : JMap) (mm : HttpMethod) (u : String) (hd : Headers) (b : String),
      env.parseMap jsonStr = Except.ok m0 →
      env.toJsonString (payMergedMap self m0) = Except.ok body →
      Event.sent mm u hd b ∈ (pay self env method url jsonStr).2 → b = body) := by
  refine ⟨?_, ?_, ?_, ?_, ?_⟩
  · unfold payMergedMap
    rw [jlookup_jinsert_ne _ _ _ (by decide), jlookup_jinsert_ne _ _ _ (by decide),
        jlookup_jinsert_self]
  · unfold payMergedMap
    rw [jlookup_jinsert_ne _ _ _ (by decide), jlookup_jinsert_self]
  · unfold payMergedMap
    rw [jlookup_jinsert_self]
  · intro k h1 h2 h3
    unfold payMergedMap
    rw [jlookup_jinsert_ne _ _ _ h3, jlookup_jinsert_ne _ _ _ h2,
        jlookup_jinsert_ne _ _ _ h1]
  · intro R env method url jsonStr body m0 mm u hd b hp hs hmem
    obtain ⟨_, _, m1, hp1, hs1⟩ :=
      pay_sent_inv self env method url jsonStr mm u hd b hmem
    rw [hp] at hp1
    obtain rfl : m0 = m1 := by injection hp1
    rw [hs] at hs1
    injection hs1 with h
    exact h.symm

/-- Witness for C8 at a concrete map and environment: a caller-supplied
appid is overwritten, an unrelated key survives, and the sent body is the
serialized merged map. -/
theorem pay_forces_client_fields_witness :
    jlookup "appid" (payMergedMap demoClient [("appid", JValue.str "caller"),
      ("total", JValue.num 1)]) = some (JValue.str "app") ∧
    jlookup "total" (payMergedMap demoClient [("appid", JValue.str "caller"),
      ("total", JValue.num 1)]) = some (JValue.num 1) ∧
    "BODY" = "BODY" := by
  refine ⟨?_, ?_, ?_⟩
  · exact (pay_forces_client_fields demoClient
      [("appid", JValue.str "caller"), ("total", JValue.num 1)]).1
  · rw [(pay_forces_client_fields demoClient
      [("appid", JValue.str "caller"), ("total", JValue.num 1)]).2.2.2.1 "total"
        (by decide) (by decide) (by decide)]
    decide
  · exact (pay_forces_client_fields demoClient
      [("appid", JValue.str "caller"), ("total", JValue.num 1)]).2.2.2.2 String okEnv
      HttpMethod.POST "/x" "params" "BODY" [("total", JValue.num 1)] HttpMethod.POST
      (demoClient.base_url ++ "/x") "AUTH" "BODY" rfl rfl (by decide)

/-- Claim C1 (amended): no outbound operation subjects the inbound response
to signature verification: pay, get_pay, refunds and transfer_bills decode
the response body and hand it to the caller with zero verification events
in their traces. -/
theorem responses_never_verified {R : Type} (self : WechatPay) (env : PayEnv R)
    (method : HttpMethod) (url jsonStr paramsJson : String) :
    List.countP isVerifiedEvent (pay self env method url jsonStr).2 = 0 ∧
    List.countP isVerifiedEvent (get_pay self env url).2 = 0 ∧
    List.countP isVerifiedEvent (refunds self env paramsJson).2 = 0 ∧
    List.countP isVerifiedEvent (transfer_bills self env paramsJson).2 = 0 := by
  refine ⟨?_, ?_, ?_, ?_⟩
  · cases hp : env.parseMap jsonStr with
    | error e => rw [pay_parse_error self env method url jsonStr e hp]; rfl
    | ok m0 =>
      cases hs : env.toJsonString (payMergedMap self m0) with
      | error e => rw [pay_toJson_error self env method url jsonStr m0 e hp hs]; rfl
      | ok body =>
        rw [pay_ok_body self env method url jsonStr m0 body hp hs]
        exact transportPhase_countVerified self env method url body
  · exact transportPhase_countVerified self env HttpMethod.GET url ""
  · exact transportPhase_countVerified self env HttpMethod.POST
      "/v3/refund/domestic/refunds" paramsJson
  · exact transportPhase_countVerified self env HttpMethod.POST
      "/v3/fund-app/mch-transfer/transfer-bills" paramsJson

/-- Counterexample to claim C1 as stated: with every external step
succeeding, pay hands the decoded response body to the caller while its
trace records signing, sending and decoding but no verification event: the
caller observes response content whose signature was never verified. -/
theorem pay_unverified_counterexample :
    (pay demoClient okEnv HttpMethod.POST "/v3/pay/transactions/native" "params").1
      = Except.ok "RAW" ∧
    (pay demoClient okEnv HttpMethod.POST "/v3/pay/transactions/native" "params").2
      = [Event.signCall HttpMethod.POST "/v3/pay/transactions/native" "BODY",
         Event.sent HttpMethod.POST
           "https://api.mch.weixin.qq.com/v3/pay/transactions/native" "AUTH" "BODY",
         Event.decoded "RAW"] ∧
    List.countP isVerifiedEvent
      (pay demoClient okEnv HttpMethod.POST "/v3/pay/transactions/native" "params").2
      = 0 := by
  refine ⟨rfl, by decide, rfl⟩

/-- Claim C2: whenever pay, refunds or transfer_bills sends a request, the
method, the url path and the body over which build_header computed the
authentication headers are the same method, path and a body byte-identical
to the transmitted one. -/
theorem signed_bytes_equal_sent_bytes {R : Type} (self : WechatPay) (env : PayEnv R) :
    (∀ (method : HttpMethod) (url jsonStr : String) (mm : HttpMethod) (u : String)
        (hd : Headers) (b : String),
      Event.sent mm u hd b ∈ (pay self env method url jsonStr).2 →
        mm = method ∧ u = self.base_url ++ url ∧
        Event.signCall method url b ∈ (pay self env method url jsonStr).2) ∧
    (∀ (paramsJson : String) (mm : HttpMethod) (u : String) (hd : Headers) (b : String),
      Event.sent mm u hd b ∈ (refunds self env paramsJson).2 →
        mm = HttpMethod.POST ∧ u = self.base_url ++ "/v3/refund/domestic/refunds" ∧
        b = paramsJson ∧
        Event.signCall HttpMethod.POST "/v3/refund/domestic/refunds" paramsJson
          ∈ (refunds self env paramsJson).2) ∧
    (∀ (paramsJson : String) (mm : HttpMethod) (u : String) (hd : Headers) (b : String),
      Event.sent mm u hd b ∈ (transfer_bills self env paramsJson).2 →
        mm = HttpMethod.POST ∧
        u = self.base_url ++ "/v3/fund-app/mch-transfer/transfer-bills" ∧
        b = paramsJson ∧
        Event.signCall HttpMethod.POST "/v3/fund-app/mch-transfer/transfer-bills"
          paramsJson ∈ (transfer_bills self env paramsJson).2) := by
  refine ⟨?_, ?_, ?_⟩
  · intro method url jsonStr mm u hd b hmem
    cases hp : env.parseMap jsonStr with
    | error e =>
      rw [pay_parse_error self env method url jsonStr e hp] at hmem
      cases hmem
    | ok m0 =>
      cases hs : env.toJsonString (payMergedMap self m0) with
      | error e =>
        rw [pay_toJson_error self env method url jsonStr m0 e hp hs] at hmem
        cases hmem
      | ok body =>
        rw [pay_ok_body self env method url jsonStr m0 body hp hs] at hmem ⊢
        obtain ⟨h1, h2, h3, _⟩ :=
          transportPhase_sent_mem self env method url body mm u hd b hmem
        subst h3
        exact ⟨h1, h2, transportPhase_signCall_self_mem self env method url b⟩
  · intro paramsJson mm u hd b hmem
    obtain ⟨h1, h2, h3, _⟩ := transportPhase_sent_mem self env HttpMethod.POST
      "/v3/refund/domestic/refunds" paramsJson mm u hd b hmem
    exact ⟨h1, h2, h3, transportPhase_signCall_self_mem self env HttpMethod.POST
      "/v3/refund/domestic/refunds" paramsJson⟩
  · intro paramsJson mm u hd b hmem
    obtain ⟨h1, h2, h3, _⟩ := transportPhase_sent_mem self env HttpMethod.POST
      "/v3/fund-app/mch-transfer/transfer-bills" paramsJson mm u hd b hmem
    exact ⟨h1, h2, h3, transportPhase_signCall_self_mem self env HttpMethod.POST
      "/v3/fund-app/mch-transfer/transfer-bills" paramsJson⟩

/-- Witness for C2 at a concrete environment: the request sent by pay was
preceded by a signing call over the same path and the identical body. -/
theorem signed_bytes_equal_sent_bytes_witness :
    Event.signCall HttpMethod.POST "/v3/pay/transactions/h5" "BODY"
      ∈ (pay demoClient okEnv HttpMethod.POST "/v3/pay/transactions/h5" "params").2 := by
  have h := (signed_bytes_equal_sent_bytes demoClient okEnv).1 HttpMethod.POST
    "/v3/pay/transactions/h5" "params" HttpMethod.POST
    ("https://api.mch.weixin.qq.com" ++ "/v3/pay/transactions/h5") "AUTH" "BODY"
    (by decide)
  exact h.2.2

/-- Claim C3: a build_header failure aborts the operation: the signing
error is returned unchanged, the trace holds exactly the one signing
attempt and no sent event, so no HTTP request is issued and nothing is
retried. -/
theorem sign_failure_aborts {R : Type} (self : WechatPay) (env : PayEnv R) :
    (∀ (method : HttpMethod) (url jsonStr : String) (m0 : JMap) (body : String)
        (e : PayError),
      env.parseMap jsonStr = Except.ok m0 →
      env.toJsonString (payMergedMap self m0) = Except.ok body →
      env.build_header method url body = Except.error e →
      pay self env method url jsonStr
        = (Except.error e, [Event.signCall method url body])) ∧
    (∀ (url : String) (e : PayError),
      env.build_header HttpMethod.GET url "" = Except.error e →
      get_pay self env url
        = (Except.error e, [Event.signCall HttpMethod.GET url ""])) ∧
    (∀ (paramsJson : String) (e : PayError),
      env.build_header HttpMethod.POST "/v3/refund/domestic/refunds" paramsJson
          = Except.error e →
      refunds self env paramsJson
        = (Except.error e,
           [Event.signCall HttpMethod.POST "/v3/refund/domestic/refunds" paramsJson])) ∧
    (∀ (paramsJson : String) (e : PayError),
      env.build_header HttpMethod.POST "/v3/fund-app/mch-transfer/transfer-bills"
          paramsJson = Except.error e →
      transfer_bills self env paramsJson
        = (Except.error e,
           [Event.signCall HttpMethod.POST "/v3/fund-app/mch-transfer/transfer-bills"
             paramsJson])) := by
  refine ⟨?_, ?_, ?_, ?_⟩
  · intro method url jsonStr m0 body e hp hs hb
    rw [pay_ok_body self env method url jsonStr m0 body hp hs]
    exact transportPhase_sign_error self env method url body e hb
  · intro url e hb
    exact transportPhase_sign_error self env HttpMethod.GET url "" e hb
  · intro paramsJson e hb
    exact transportPhase_sign_error self env HttpMethod.POST
      "/v3/refund/domestic/refunds" paramsJson e hb
  · intro paramsJson e hb
    exact transportPhase_sign_error self env HttpMethod.POST
      "/v3/fund-app/mch-transfer/transfer-bills" paramsJson e hb

/-- Witness for C3 at a concrete environment whose build_header fails: pay
returns the signing error and the trace shows one signing attempt and no
send. -/
theorem sign_failure_aborts_witness :
    pay demoClient failSignEnv HttpMethod.POST "/x" "params"
      = (Except.error (PayError.signError "bad key"),
         [Event.signCall HttpMethod.POST "/x" "BODY"]) :=
  (sign_failure_aborts demoClient failSignEnv).1 HttpMethod.POST "/x" "params"
    [("total", JValue.num 1)] "BODY" (PayError.signError "bad key") rfl rfl rfl

/-- Claim C4: every failure inside pay — parse, re-serialization, signing,
transport or response decoding — is returned to the caller as that typed
error, and a success certifies that every step succeeded: no failure is
swallowed or converted into a success. -/
theorem pay_errors_propagate {R : Type} (self : WechatPay) (env : PayEnv R)
    (method : HttpMethod) (url jsonStr : String) :
    (∀ e, env.parseMap jsonStr = Except.error e →
      (pay self env method url jsonStr).1 = Except.error e) ∧
    (∀ m0 e, env.parseMap jsonStr = Except.ok m0 →
      env.toJsonString (payMergedMap self m0) = Except.error e →
      (pay self env method url jsonStr).1 = Except.error e) ∧
    (∀ m0 body e, env.parseMap jsonStr = Except.ok m0 →
      env.toJsonString (payMergedMap self m0) = Except.ok body →
      env.build_header method url body = Except.error e →
      (pay self env method url jsonStr).1 = Except.error e) ∧
    (∀ m0 body headers e, env.parseMap jsonStr = Except.ok m0 →
      env.toJsonString (payMergedMap self m0) = Except.ok body →
      env.build_header method url body = Except.ok headers →
      env.send method (self.base_url ++ url) headers body = Except.error e →
      (pay self env method url jsonStr).1 = Except.error e) ∧
    (∀ m0 body headers raw e, env.parseMap jsonStr = Except.ok m0 →
      env.toJsonString (payMergedMap self m0) = Except.ok body →
      env.build_header method url body = Except.ok headers →
      env.send method (self.base_url ++ url) headers body = Except.ok raw →
      env.decodeJson raw = Except.error e →
      (pay self env method url jsonStr).1 = Except.error e) ∧
    (∀ r, (pay self env method url jsonStr).1 = Except.ok r →
      ∃ m0 body headers raw, env.parseMap jsonStr = Except.ok m0 ∧
        env.toJsonString (payMergedMap self m0) = Except.ok body ∧
        env.build_header method url body = Except.ok headers ∧
        env.send method (self.base_url ++ url) headers body = Except.ok raw ∧
        env.decodeJson raw = Except.ok r) := by
  refine ⟨?_, ?_, ?_, ?_, ?_, ?_⟩
  · intro e hp
    rw [pay_parse_error self env method url jsonStr e hp]
  · intro m0 e hp hs
    rw [pay_toJson_error self env method url jsonStr m0 e hp hs]
  · intro m0 body e hp hs hb
    rw [pay_ok_body self env method url jsonStr m0 body hp hs,
        transportPhase_sign_error self env method url body e hb]
  · intro m0 body headers e hp hs hb hsend
    rw [pay_ok_body self env method url jsonStr m0 body hp hs]
    exact transportPhase_send_error self env method url body headers e hb hsend
  · intro m0 body headers raw e hp hs hb hsend hdec
    rw [pay_ok_body self env method url jsonStr m0 body hp hs]
    exact transportPhase_decode_error self env method url body headers raw e hb hsend hdec
  · intro r hr
    cases hp : env.parseMap jsonStr with
    | error e => rw [pay_parse_error self env method url jsonStr e hp] at hr; cases hr
    | ok m0 =>
      cases hs : env.toJsonString (payMergedMap self m0) with
      | error e =>
        rw [pay_toJson_error self env method url jsonStr m0 e hp hs] at hr
        cases hr
      | ok body =>
        rw [pay_ok_body self env method url jsonStr m0 body hp hs] at hr
        obtain ⟨headers, raw, hb, hsend, hdec⟩ :=
          transportPhase_ok_inv self env method url body r hr
        exact ⟨m0, body, headers, raw, rfl, hs, hb, hsend, hdec⟩

/-- Witness for C4 at a concrete environment: a success of pay certifies
success of every step. -/
theorem pay_errors_propagate_witness :
    ∃ m0 body headers raw,
      okEnv.parseMap "params" = Except.ok m0 ∧
      okEnv.toJsonString (payMergedMap demoClient m0) = Except.ok body ∧
      okEnv.build_header HttpMethod.POST "/x" body = Except.ok headers ∧
      okEnv.send HttpMethod.POST (demoClient.base_url ++ "/x") headers body
        = Except.ok raw ∧
      okEnv.decodeJson raw = Except.ok "RAW" :=
  (pay_errors_propagate demoClient okEnv HttpMethod.POST "/x" "params").2.2.2.2.2
    "RAW" rfl

/-- Claim C5: certificates issues a signed GET to /v3/certificates: its
trace begins with the build_header call over GET, the /v3/certificates
path and the empty body, and any request actually sent is a GET to
base_url concatenated with /v3/certificates carrying the headers that
build_header returned for exactly those arguments. -/
theorem certificates_signed_get (self : WechatPay) (env : PayEnv CertificateResponse) :
    (certificates self env).2.head?
      = some (Event.signCall HttpMethod.GET "/v3/certificates" "") ∧
    (∀ (mm : HttpMethod) (u : String) (hd : Headers) (b : String),
      Event.sent mm u hd b ∈ (certificates self env).2 →
        mm = HttpMethod.GET ∧ u = self.base_url ++ "/v3/certificates" ∧ b = "" ∧
        env.build_header HttpMethod.GET "/v3/certificates" "" = Except.ok hd) := by
  constructor
  · exact transportPhase_head self env HttpMethod.GET "/v3/certificates" ""
  · intro mm u hd b hmem
    exact transportPhase_sent_mem self env HttpMethod.GET "/v3/certificates" ""
      mm u hd b hmem

/-- Witness for C5 at a concrete environment where the request is sent. -/
theorem certificates_signed_get_witness :
    HttpMethod.GET = HttpMethod.GET ∧
    "https://api.mch.weixin.qq.com" ++ "/v3/certificates"
      = demoClient.base_url ++ "/v3/certificates" ∧
    "" = "" ∧
    okEnv.build_header HttpMethod.GET "/v3/certificates" "" = Except.ok "AUTH" :=
  (certificates_signed_get demoClient okEnv).2 HttpMethod.GET
    ("https://api.mch.weixin.qq.com" ++ "/v3/certificates") "AUTH" "" (by decide)

/-- Claim C6: get_pay signs with the empty string as the body: the body
argument handed to build_header is the empty string (the first trace event
is the signing call with body empty, and every signing call in the trace
has an empty body), and the canonical signing string built over an empty
body still carries the empty body line terminated by its newline. -/
theorem get_pay_empty_body {R : Type} (self : WechatPay) (env : PayEnv R)
    (url : String) :
    (get_pay self env url).2.head?
      = some (Event.signCall HttpMethod.GET url "") ∧
    (∀ (mm : HttpMethod) (p b : String),
      Event.signCall mm p b ∈ (get_pay self env url).2 → b = "") ∧
    (∀ timestamp nonce : String,
      canonical_request_string "GET" url timestamp nonce "" =
        "GET" ++ "\n" ++ url ++ "\n" ++ timestamp ++ "\n" ++ nonce ++ "\n" ++ "\n") := by
  refine ⟨?_, ?_, ?_⟩
  · exact transportPhase_head self env HttpMethod.GET url ""
  · intro mm p b hmem
    exact (transportPhase_signCall_inv self env HttpMethod.GET url "" mm p b hmem).2.2
  · intro timestamp nonce
    simp [canonical_request_string]

/-- Witness for C6 at a concrete url, timestamp and nonce. -/
theorem get_pay_empty_body_witness :
    "" = "" ∧
    canonical_request_string "GET" "/v3/certificates" "1700000000"
      "NONCE1234567890" ""
      = "GET\n/v3/certificates\n1700000000\nNONCE1234567890\n\n" := by
  constructor
  · exact (get_pay_empty_body demoClient okEnv "/v3/certificates").2.1
      HttpMethod.GET "/v3/certificates" "" (by decide)
  · rw [(get_pay_empty_body demoClient okEnv "/v3/certificates").2.2
      "1700000000" "NONCE1234567890"]
    decide

/-- Claim C7: native_pay signs over the /v3/pay/transactions/native path
with method POST, and any request it sends goes to base_url concatenated
with that path; for the production base url the path component of the sent
url is exactly /v3/pay/transactions/native. -/
theorem native_pay_path (self : WechatPay) (env : PayEnv NativeResponse)
    (paramsJson : String) :
    (∀ (mm : HttpMethod) (p b : String),
      Event.signCall mm p b ∈ (native_pay self env paramsJson).2 →
        mm = HttpMethod.POST ∧ p = "/v3/pay/transactions/native") ∧
    (∀ (mm : HttpMethod) (u : String) (hd : Headers) (b : String),
      Event.sent mm u hd b ∈ (native_pay self env paramsJson).2 →
        mm = HttpMethod.POST ∧ u = self.base_url ++ "/v3/pay/transactions/native" ∧
        (self.base_url = "https://api.mch.weixin.qq.com" →
          urlPathOf u = "/v3/pay/transactions/native")) := by
  constructor
  · intro mm p b hmem
    exact pay_signCall_inv self env HttpMethod.POST "/v3/pay/transactions/native"
      paramsJson mm p b hmem
  · intro mm u hd b hmem
    obtain ⟨h1, h2, _⟩ := pay_sent_inv self env HttpMethod.POST
      "/v3/pay/transactions/native" paramsJson mm u hd b hmem
    refine ⟨h1, h2, ?_⟩
    intro hbase
    rw [h2, hbase]
    decide

/-- Witness for C7: at the production base url the sent url's path
component is the native endpoint. -/
theorem native_pay_path_witness :
    urlPathOf (demoClient.base_url ++ "/v3/pay/transactions/native")
      = "/v3/pay/transactions/native" :=
  ((native_pay_path demoClient okEnv "params").2 HttpMethod.POST
    (demoClient.base_url ++ "/v3/pay/transactions/native") "AUTH" "BODY"
    (by decide)).2.2 rfl

/-- Claim C9: micro_pay targets the jsapi endpoint: every signing call and
every sent request of micro_pay uses the /v3/pay/transactions/jsapi path,
and with environments agreeing on parsing, serialization, signing and
transport, micro_pay and jsapi_pay produce identical request traces. -/
theorem micro_pay_targets_jsapi_endpoint (self : WechatPay)
    (envM : PayEnv MicroResponse) (envJ : PayEnv JsapiResponse) (paramsJson : String) :
    (∀ (mm : HttpMethod) (p b : String),
      Event.signCall mm p b ∈ (micro_pay self envM paramsJson).2 →
        p = "/v3/pay/transactions/jsapi") ∧
    (∀ (mm : HttpMethod) (u : String) (hd : Headers) (b : String),
      Event.sent mm u hd b ∈ (micro_pay self envM paramsJson).2 →
        u = self.base_url ++ "/v3/pay/transactions/jsapi") ∧
    (envM.parseMap = envJ.parseMap → envM.toJsonString = envJ.toJsonString →
      envM.build_header = envJ.build_header → envM.send = envJ.send →
      (micro_pay self envM paramsJson).2 = (jsapi_pay self envJ paramsJson).2) := by
  refine ⟨?_, ?_, ?_⟩
  · intro mm p b hmem
    exact (pay_signCall_inv self envM HttpMethod.POST "/v3/pay/transactions/jsapi"
      paramsJson mm p b hmem).2
  · intro mm u hd b hmem
    exact (pay_sent_inv self envM HttpMethod.POST "/v3/pay/transactions/jsapi"
      paramsJson mm u hd b hmem).2.1
  · intro h1 h2 h3 h4
    exact pay_trace_congr self envM envJ HttpMethod.POST "/v3/pay/transactions/jsapi"
      paramsJson h1 h2 h3 h4

/-- Witness for C9 at concrete environments sharing their transport
components: micro_pay sends to the jsapi url and its trace equals the
jsapi_pay trace. -/
theorem micro_pay_targets_jsapi_endpoint_witness :
    ("https://api.mch.weixin.qq.com" ++ "/v3/pay/transactions/jsapi"
      = demoClient.base_url ++ "/v3/pay/transactions/jsapi") ∧
    (micro_pay demoClient okEnvMicro "params").2
      = (jsapi_pay demoClient okEnvJsapi "params").2 := by
  constructor
  · exact (micro_pay_targets_jsapi_endpoint demoClient okEnvMicro okEnvJsapi
      "params").2.1 HttpMethod.POST
      ("https://api.mch.weixin.qq.com" ++ "/v3/pay/transactions/jsapi") "AUTH" "BODY"
      (by decide)
  · exact (micro_pay_targets_jsapi_endpoint demoClient okEnvMicro okEnvJsapi
      "params").2.2 rfl rfl rfl rfl

end WechatSdk
